import Mathlib

/-!
Shallow embedding of the repository tmr232/python-extension-methods.

The repository is a small Python exploration of "extension methods": a
Square dataclass (src/square.py) and four strategies for attaching an
extra method to a class (src/extend.py): monkey_extend, scoped_extend,
no_override_extend and extension, together with demo scripts
(src/main_3.py, src/main_4.py, src/extend_5.py).

Modelling choices, all traceable to the source:

- A Python stack frame is modelled by its local and global binding lists;
  the extension code only ever reads the first frame outside the extension
  module (inspect.stack in _get_first_external_stack_frame), so every
  lookup function here takes that frame as an explicit argument.
- Python values relevant to the code are modelled by the inductive PyVal:
  integers, strings, booleans, None, function objects (identified by name
  and an identity tag, since Python compares functions by identity),
  class objects (likewise), and the bound callables produced by
  functools on a function and an instance.
- Raising AttributeError is modelled by Except Unit: Except.error () is
  the raised error, Except.ok v a successful lookup.
- A class is modelled by its attribute table: the plain attributes set by
  setattr, and an optional dunder getattr handler.  A World carries the
  association list of classes (keyed by class name) plus the list of live
  Square instances, so that the effect of each strategy on class tables
  and on instance state can be stated.
-/

namespace PyExt

/-- The Square dataclass of src/square.py: a single field, length : int. -/
structure Square where
  length : Int
deriving DecidableEq, Repr

/-- A Python function object: its dunder name and an identity tag.  Python
compares function objects by identity, so two functions with equal names
but different tags are unequal. -/
structure PyFunc where
  name : String
  id : Nat
deriving DecidableEq, Repr

/-- The Python values the repository manipulates. -/
inductive PyVal where
  | intV (n : Int)
  | strV (s : String)
  | boolV (b : Bool)
  | noneV
  | funcV (f : PyFunc)
  | clsV (name : String) (id : Nat)
  | bound (f : PyFunc) (obj : Square)
deriving DecidableEq, Repr

/-- First-match lookup in an association list, as Python dict.get. -/
def assocLookup {α : Type} : List (String × α) → String → Option α
  | [], _ => none
  | (k, v) :: rest, n => if k = n then some v else assocLookup rest n

/-- Update the entry at a key, keeping the rest of the list unchanged; absent
keys are left alone (the repository only ever updates classes that exist). -/
def assocModify {α : Type} (g : α → α) : List (String × α) → String → List (String × α)
  | [], _ => []
  | (k, v) :: rest, n => if k = n then (k, g v) :: rest else (k, v) :: assocModify g rest n

/-- The first stack frame outside the extension module, as found by
_get_first_external_stack_frame in src/extend.py: its local and global
bindings. -/
structure Frame where
  locals : List (String × PyVal)
  globals : List (String × PyVal)

/-- ChainMap(frame.f_locals, frame.f_globals).get(name): the local bindings
are consulted before the global ones, and a missing key yields None. -/
def chainMapGet (fr : Frame) (name : String) : PyVal :=
  match assocLookup fr.locals name with
  | some v => v
  | none =>
    match assocLookup fr.globals name with
    | some v => v
    | none => PyVal.noneV

/-- _is_in_scope of src/extend.py, evaluated at the first external frame:
ChainMap(frame.f_locals, frame.f_globals).get(name) == value. -/
def _is_in_scope (fr : Frame) (name : String) (value : PyVal) : Bool :=
  decide (chainMapGet fr name = value)

/-- A dunder getattr handler: given the instance, the looked-up name and the
caller frame, either return a value or raise AttributeError. -/
abbrev Getattr := Square → String → Frame → Except Unit PyVal

/-- Square's own dunder getattr (src/square.py lines 10-13): 'snake' resolves
to 'eyes', every other name raises AttributeError. -/
def Square.getattrImpl : Getattr := fun _ name _ =>
  if name = "snake" then Except.ok (PyVal.strV "eyes") else Except.error ()

/-- The fallback handler used by getattr(cls, dunder getattr, default) in
no_override_extend and extension: always raise AttributeError. -/
def defaultGetattr : Getattr := fun _ _ _ => Except.error ()

/-- The handler installed by scoped_extend (src/extend.py lines 28-35): any
name other than the registered function's name raises; then the scope check
must find the function itself under its own name in the caller frame; on
success the function is returned bound to the instance. -/
def scoped_getattr (f : PyFunc) : Getattr := fun obj name fr =>
  if name ≠ f.name then Except.error ()
  else if _is_in_scope fr f.name (PyVal.funcV f) = false then Except.error ()
  else Except.ok (PyVal.bound f obj)

/-- The handler installed by no_override_extend (src/extend.py lines 50-60):
first defer to the class's previous handler, returning its value whenever it
does not raise; only when it raises AttributeError run the gated lookup,
whose source lines 54-60 repeat verbatim the body of the scoped_extend
handler (lines 29-35). -/
def no_override_getattr (original : Getattr) (f : PyFunc) : Getattr := fun obj name fr =>
  match original obj name fr with
  | Except.ok v => Except.ok v
  | Except.error _ => scoped_getattr f obj name fr

/-- An attribute defined on a scope class used with the extension strategy:
either a plain method (a function object) or a property with a getter. -/
inductive ScopeAttr where
  | method (f : PyFunc)
  | prop (getter : Square → PyVal)

/-- A scope class as passed to the extension strategy (src/extend.py lines
68-95): its dunder name, an identity tag for the scope check, the name of
its base class, and its own attribute table (the names hasattr finds on it
that can still reach dunder getattr on base-class instances are exactly the
ones it defines itself). -/
structure ScopeCls where
  name : String
  id : Nat
  baseName : String
  attrs : List (String × ScopeAttr)

/-- The handler installed by extension (src/extend.py lines 76-91): defer to
the base class's previous handler; when it raises, require hasattr on the
scope class, then the scope check on the scope class's own name; a property
attribute yields its getter's value, a method is returned bound to the
instance. -/
def extension_getattr (original : Getattr) (sc : ScopeCls) : Getattr := fun obj name fr =>
  match original obj name fr with
  | Except.ok v => Except.ok v
  | Except.error _ =>
    match assocLookup sc.attrs name with
    | none => Except.error ()
    | some a =>
      if _is_in_scope fr sc.name (PyVal.clsV sc.name sc.id) = false then Except.error ()
      else
        match a with
        | ScopeAttr.prop getter => Except.ok (getter obj)
        | ScopeAttr.method f => Except.ok (PyVal.bound f obj)

/-- A class object's attribute table: the plain attributes installed with
setattr, and the optional dunder getattr handler. -/
structure ClassState where
  methods : List (String × PyFunc)
  getattrHandler : Option Getattr

/-- A class with no attributes and no dunder getattr. -/
def emptyClass : ClassState := { methods := [], getattrHandler := none }

/-- getattr(cls, dunder getattr, default handler), as in src/extend.py lines
48 and 74. -/
def getattrOrDefault (c : ClassState) : Getattr :=
  match c.getattrHandler with
  | some g => g
  | none => defaultGetattr

/-- The process state the strategies act on: the class tables (keyed by class
name) and the live Square instances. -/
structure World where
  classes : List (String × ClassState)
  instances : List Square

/-- Replace one class's table, leaving every other class and all instances
unchanged. -/
def updateClass (w : World) (clsName : String) (g : ClassState → ClassState) : World :=
  { w with classes := assocModify g w.classes clsName }

/-- monkey_extend (src/extend.py lines 19-23): setattr(cls, f.name, f),
nothing else. -/
def monkey_extend (clsName : String) (f : PyFunc) (w : World) : World :=
  updateClass w clsName fun c => { c with methods := (f.name, f) :: c.methods }

/-- scoped_extend (src/extend.py lines 26-40): overwrite the class's dunder
getattr with the gated handler, discarding any previous handler. -/
def scoped_extend (clsName : String) (f : PyFunc) (w : World) : World :=
  updateClass w clsName fun c => { c with getattrHandler := some (scoped_getattr f) }

/-- no_override_extend (src/extend.py lines 43-65): wrap the class's previous
dunder getattr (or the always-raising default) in the gated handler. -/
def no_override_extend (clsName : String) (f : PyFunc) (w : World) : World :=
  updateClass w clsName fun c =>
    { c with getattrHandler := some (no_override_getattr (getattrOrDefault c) f) }

/-- extension (src/extend.py lines 68-95): install the gated handler on the
scope class's base class, wrapping the base class's previous handler. -/
def extension (sc : ScopeCls) (w : World) : World :=
  updateClass w sc.baseName fun c =>
    { c with getattrHandler := some (extension_getattr (getattrOrDefault c) sc) }

/-- The class table registered under a name in a world. -/
def classOf (w : World) (clsName : String) : ClassState :=
  (assocLookup w.classes clsName).getD emptyClass

/-- Full attribute lookup on a Square instance of a class: the instance
field, then the class's plain attributes (a function accessed through an
instance is bound to it), and only when both fail the class's dunder getattr
handler; with no handler the lookup raises AttributeError. -/
def instGetattr (c : ClassState) (sq : Square) (name : String) (fr : Frame) :
    Except Unit PyVal :=
  if name = "length" then Except.ok (PyVal.intV sq.length)
  else
    match assocLookup c.methods name with
    | some f => Except.ok (PyVal.bound f sq)
    | none =>
      match c.getattrHandler with
      | some g => g sq name fr
      | none => Except.error ()

/-- Attribute lookup that also returns the instance after the lookup.  Each
branch of the source handlers contains no assignment to the instance, so the
embedding threads the Square through unchanged; this is the form in which
the frame property of lookups is stated. -/
def instGetattrSt (c : ClassState) (sq : Square) (name : String) (fr : Frame) :
    Except Unit PyVal × Square :=
  if name = "length" then (Except.ok (PyVal.intV sq.length), sq)
  else
    match assocLookup c.methods name with
    | some f => (Except.ok (PyVal.bound f sq), sq)
    | none =>
      match c.getattrHandler with
      | some g => (g sq name fr, sq)
      | none => (Except.error (), sq)

/-- randint(a, b) of the Python random module: a draw between a and b
inclusive; the seed abstracts the random state. -/
def randint (a b seed : Nat) : Nat := a + seed % (b - a + 1)

/-- get_square (src/square.py lines 20-21): Square(randint(1, 10)). -/
def get_square (seed : Nat) : Square := { length := (randint 1 10 seed : Int) }

/-- A line of n star characters, as produced by the string repetition in
draw_square. -/
def starLine (n : Nat) : String := String.mk (List.replicate n (Char.ofNat 42))

/-- The text printed by draw_square (src/square.py lines 16-17): length
copies of a length-star line, joined by newline characters.  A nonpositive
length yields the empty join, as Python string repetition and
itertools.repeat do. -/
def draw_square_output (sq : Square) : String :=
  String.intercalate (String.mk [Char.ofNat 10])
    (List.replicate sq.length.toNat (starLine sq.length.toNat))

/-- The draw function registered by the demo scripts: draw_square wrapped as
an extension method. -/
def drawF : PyFunc := { name := "draw", id := 0 }

/-- The Square class as defined in src/square.py: no plain extension
attributes, its own dunder getattr handler. -/
def squareClass0 : ClassState :=
  { methods := [], getattrHandler := some Square.getattrImpl }

/-- The initial world: the Square class alone, no live instances. -/
def w0 : World := { classes := [("Square", squareClass0)], instances := [] }

/-- SquareExtensions of src/extend_5.py: a subclass of Square defining the
single method draw, decorated with the extension strategy. -/
def squareExtensions : ScopeCls :=
  { name := "SquareExtensions", id := 1, baseName := "Square",
    attrs := [("draw", ScopeAttr.method drawF)] }

/-- The world after the extension decorator of src/extend_5.py has run. -/
def wExt : World := extension squareExtensions w0

/-- The world after scoped_extend(Square)(draw), as in the script driving
src/main_3.py and src/main_4.py. -/
def wScopedDraw : World := scoped_extend "Square" drawF w0

/-- A frame with no bindings at all. -/
def emptyFrame : Frame := { locals := [], globals := [] }

/-- A concrete Square of side 3. -/
def sq3 : Square := { length := 3 }

/-- The frame of main in src/main_4.py after the assignment draw = True: the
local binding shadows the global binding of the draw function. -/
def frShadow : Frame :=
  { locals := [("draw", PyVal.boolV true)],
    globals := [("draw", PyVal.funcV drawF)] }

/-- A frame whose globals bind the name SquareExtensions to the scope class,
as in src/extend_5.py importing and decorating it. -/
def frExtScope : Frame :=
  { locals := [], globals := [("SquareExtensions", PyVal.clsV "SquareExtensions" 1)] }

/-- A scope class carrying a property, exercising the property branch of the
extension handler. -/
def areaSc : ScopeCls :=
  { name := "SE2", id := 2, baseName := "Square",
    attrs := [("area", ScopeAttr.prop fun _ => PyVal.strV "area value")] }

/-- A frame whose globals bind the name SE2 to the property-carrying scope
class. -/
def frAreaScope : Frame := { locals := [], globals := [("SE2", PyVal.clsV "SE2" 2)] }

/-! ## Helper lemmas -/

/-- Modifying the table at one key leaves lookups at every other key
unchanged. -/
theorem assocLookup_assocModify_ne {α : Type} (g : α → α) (l : List (String × α))
    (k n : String) (h : n ≠ k) :
    assocLookup (assocModify g l k) n = assocLookup l n := by
  induction l with
  | nil => rfl
  | cons hd tl ih =>
    obtain ⟨k0, v0⟩ := hd
    by_cases hk : k0 = k
    · subst hk
      have hn : ¬ (k0 = n) := fun he => h he.symm
      simp [assocModify, assocLookup, hn]
    · by_cases hn : k0 = n
      · simp [assocModify, assocLookup, hk, hn, h]
      · simp [assocModify, assocLookup, hk, hn]
        exact ih

/-- The boolean scope check succeeds exactly when the chained frame lookup
resolves the name to the value. -/
theorem is_in_scope_true_iff (fr : Frame) (n : String) (v : PyVal) :
    _is_in_scope fr n v = true ↔ chainMapGet fr n = v := by
  simp [_is_in_scope]

/-- The boolean scope check fails exactly when the chained frame lookup does
not resolve the name to the value. -/
theorem is_in_scope_false_iff (fr : Frame) (n : String) (v : PyVal) :
    _is_in_scope fr n v = false ↔ chainMapGet fr n ≠ v := by
  simp [_is_in_scope]

/-- The scoped handler raises exactly when the name is not the registered
function's name, or the chained frame lookup does not resolve that name to
the function. -/
theorem scoped_getattr_error_iff (f : PyFunc) (obj : Square) (name : String) (fr : Frame) :
    scoped_getattr f obj name fr = Except.error () ↔
      (name ≠ f.name ∨ chainMapGet fr f.name ≠ PyVal.funcV f) := by
  unfold scoped_getattr
  by_cases h1 : name = f.name
  · rw [if_neg (by simp [h1])]
    by_cases h2 : chainMapGet fr f.name = PyVal.funcV f
    · rw [if_neg (by simp [is_in_scope_false_iff, h2])]
      simp [h1, h2]
    · rw [if_pos ((is_in_scope_false_iff fr f.name (PyVal.funcV f)).mpr h2)]
      simp [h2]
  · rw [if_pos h1]
    simp [h1]

/-- The scoped handler returns the function bound to the instance exactly
when looking up the function's own name while the scope check passes. -/
theorem scoped_getattr_ok_iff (f : PyFunc) (obj : Square) (name : String) (fr : Frame) :
    scoped_getattr f obj name fr = Except.ok (PyVal.bound f obj) ↔
      (name = f.name ∧ chainMapGet fr f.name = PyVal.funcV f) := by
  unfold scoped_getattr
  by_cases h1 : name = f.name
  · rw [if_neg (by simp [h1])]
    by_cases h2 : chainMapGet fr f.name = PyVal.funcV f
    · rw [if_neg (by simp [is_in_scope_false_iff, h2])]
      simp [h1, h2]
    · rw [if_pos ((is_in_scope_false_iff fr f.name (PyVal.funcV f)).mpr h2)]
      simp [h1, h2]
  · rw [if_pos h1]
    simp [h1]

/-- Strategy applications never touch the instance list. -/
theorem updateClass_instances (w : World) (cn : String) (g : ClassState → ClassState) :
    (updateClass w cn g).instances = w.instances := rfl

/-- Attribute lookup returns the instance unchanged in every branch. -/
theorem instGetattrSt_snd (c : ClassState) (sq : Square) (name : String) (fr : Frame) :
    (instGetattrSt c sq name fr).2 = sq := by
  unfold instGetattrSt
  split
  · rfl
  · split
    · rfl
    · split
      · rfl
      · rfl

/-! ## Claim theorems -/

/-- C9 (confirmed): on a Square instance under its original class, a lookup
of a name that is not stored on the instance returns the string eyes exactly
for the name snake, and raises AttributeError for every other such name. -/
theorem square_getattr_snake_eyes (sq : Square) (name : String) (fr : Frame)
    (h : name ≠ "length") :
    (instGetattr (classOf w0 "Square") sq name fr = Except.ok (PyVal.strV "eyes") ↔
      name = "snake") ∧
    (name ≠ "snake" → instGetattr (classOf w0 "Square") sq name fr = Except.error ()) := by
  have hc : instGetattr (classOf w0 "Square") sq name fr
      = Square.getattrImpl sq name fr := by
    simp [classOf, w0, assocLookup, instGetattr, squareClass0, h]
  rw [hc]
  unfold Square.getattrImpl
  by_cases hs : name = "snake"
  · simp [hs]
  · simp [hs]

/-- Witness for C9 at concrete inputs: snake resolves to eyes and an
arbitrary other name raises. -/
theorem square_getattr_snake_eyes_witness :
    instGetattr (classOf w0 "Square") sq3 "snake" emptyFrame =
      Except.ok (PyVal.strV "eyes") ∧
    instGetattr (classOf w0 "Square") sq3 "mamba" emptyFrame = Except.error () :=
  ⟨(square_getattr_snake_eyes sq3 "snake" emptyFrame (by decide)).1.mpr rfl,
   (square_getattr_snake_eyes sq3 "mamba" emptyFrame (by decide)).2 (by decide)⟩

/-- C10 (confirmed): for a Square of length n the text printed by
draw_square is n lines joined by newline characters, each line made of
exactly n star characters. -/
theorem draw_square_output_lines (n : Nat) :
    ∃ lines : List String,
      draw_square_output { length := (n : Int) } =
        String.intercalate (String.mk [Char.ofNat 10]) lines ∧
      lines.length = n ∧
      ∀ l ∈ lines, l.length = n ∧ ∀ c ∈ l.data, c = Char.ofNat 42 := by
  refine ⟨List.replicate n (starLine n), ?_, by simp, ?_⟩
  · simp [draw_square_output]
  · intro l hl
    have hl2 := List.eq_of_mem_replicate hl
    subst hl2
    constructor
    · simp [starLine, String.length]
    · intro c hc
      exact List.eq_of_mem_replicate hc

/-- C5 (confirmed): every Square produced by get_square has a side length
between 1 and 10 inclusive, hence positive, and no registration strategy
touches the stored instances, so the length of an existing Square is never
changed. -/
theorem get_square_positive (seed : Nat) (w : World) (cn : String) (f : PyFunc)
    (sc : ScopeCls) :
    1 ≤ (get_square seed).length ∧ (get_square seed).length ≤ 10 ∧
    (monkey_extend cn f w).instances = w.instances ∧
    (scoped_extend cn f w).instances = w.instances ∧
    (no_override_extend cn f w).instances = w.instances ∧
    (extension sc w).instances = w.instances := by
  have h1 : 1 ≤ randint 1 10 seed := by unfold randint; omega
  have h2 : randint 1 10 seed ≤ 10 := by unfold randint; omega
  exact ⟨by show (1 : Int) ≤ ((randint 1 10 seed : Nat) : Int); exact_mod_cast h1,
    by show ((randint 1 10 seed : Nat) : Int) ≤ 10; exact_mod_cast h2,
    updateClass_instances w cn _, updateClass_instances w cn _,
    updateClass_instances w cn _, updateClass_instances w sc.baseName _⟩

/-- C7 (confirmed): each strategy rewrites only the target class's attribute
table: the instance list is untouched, every other class's table is
untouched, and an attribute lookup hands the instance back unchanged. -/
theorem strategies_touch_only_class_tables (w : World) (cn k : String) (f : PyFunc)
    (sc : ScopeCls) (c : ClassState) (sq : Square) (name : String) (fr : Frame) :
    (monkey_extend cn f w).instances = w.instances ∧
    (scoped_extend cn f w).instances = w.instances ∧
    (no_override_extend cn f w).instances = w.instances ∧
    (extension sc w).instances = w.instances ∧
    (k ≠ cn → assocLookup (monkey_extend cn f w).classes k = assocLookup w.classes k) ∧
    (k ≠ cn → assocLookup (scoped_extend cn f w).classes k = assocLookup w.classes k) ∧
    (k ≠ cn →
      assocLookup (no_override_extend cn f w).classes k = assocLookup w.classes k) ∧
    (k ≠ sc.baseName →
      assocLookup (extension sc w).classes k = assocLookup w.classes k) ∧
    (instGetattrSt c sq name fr).2 = sq :=
  ⟨updateClass_instances w cn _, updateClass_instances w cn _,
   updateClass_instances w cn _, updateClass_instances w sc.baseName _,
   fun h => assocLookup_assocModify_ne _ w.classes cn k h,
   fun h => assocLookup_assocModify_ne _ w.classes cn k h,
   fun h => assocLookup_assocModify_ne _ w.classes cn k h,
   fun h => assocLookup_assocModify_ne _ w.classes sc.baseName k h,
   instGetattrSt_snd c sq name fr⟩

/-- Witness for C7 at concrete inputs: applying extension leaves instances
and an unrelated class table alone, and a lookup returns the square
unchanged. -/
theorem strategies_touch_only_class_tables_witness :
    (monkey_extend "Square" drawF w0).instances = w0.instances ∧
    assocLookup (extension squareExtensions w0).classes "Other" =
      assocLookup w0.classes "Other" ∧
    (instGetattrSt squareClass0 sq3 "snake" emptyFrame).2 = sq3 :=
  have h := strategies_touch_only_class_tables w0 "Square" "Other" drawF squareExtensions
      squareClass0 sq3 "snake" emptyFrame
  ⟨h.1, h.2.2.2.2.2.2.2.1 (by decide), h.2.2.2.2.2.2.2.2⟩

/-- C2 (confirmed): after scoped_extend on Square with function f, looking
up the name of f on an instance returns f bound to that instance exactly
when the caller frame's locals-before-globals chain resolves that name to f
itself; in particular a local binding of the name to any other value shadows
a global binding of f and makes the lookup raise AttributeError. -/
theorem scoped_lookup_iff_in_scope (f : PyFunc) (sq : Square) (fr : Frame)
    (h : f.name ≠ "length") :
    (instGetattr (classOf (scoped_extend "Square" f w0) "Square") sq f.name fr =
        Except.ok (PyVal.bound f sq) ↔
      chainMapGet fr f.name = PyVal.funcV f) ∧
    (∀ v, assocLookup fr.locals f.name = some v → v ≠ PyVal.funcV f →
      instGetattr (classOf (scoped_extend "Square" f w0) "Square") sq f.name fr =
        Except.error ()) := by
  have hc : instGetattr (classOf (scoped_extend "Square" f w0) "Square") sq f.name fr
      = scoped_getattr f sq f.name fr := by
    simp [classOf, scoped_extend, updateClass, w0, assocModify, assocLookup,
      instGetattr, squareClass0, h]
  rw [hc]
  constructor
  · rw [scoped_getattr_ok_iff]
    simp
  · intro v hv hne
    rw [scoped_getattr_error_iff]
    refine Or.inr ?_
    have hcg : chainMapGet fr f.name = v := by simp [chainMapGet, hv]
    rw [hcg]
    exact hne

/-- Witness for C2: the fragile-naming scenario of src/main_4.py, where the
local binding draw = True shadows the global binding of the draw function
and the lookup raises. -/
theorem scoped_lookup_iff_in_scope_witness :
    instGetattr (classOf (scoped_extend "Square" drawF w0) "Square") sq3 "draw" frShadow =
      Except.error () :=
  (scoped_lookup_iff_in_scope drawF sq3 frShadow (by decide)).2
    (PyVal.boolV true) rfl (by decide)

/-- C8 (confirmed): scoped_extend unconditionally discards the class's
previous dunder getattr: afterwards every missing name other than the
registered one raises AttributeError, even though before the extension the
name snake resolved to the string eyes. -/
theorem scoped_extend_discards_previous_getattr (sq : Square) (name : String)
    (fr : Frame) (h1 : name ≠ "length") (h2 : name ≠ "draw") :
    instGetattr (classOf wScopedDraw "Square") sq name fr = Except.error () ∧
    instGetattr (classOf w0 "Square") sq "snake" fr = Except.ok (PyVal.strV "eyes") := by
  constructor
  · have hc : instGetattr (classOf wScopedDraw "Square") sq name fr
        = scoped_getattr drawF sq name fr := by
      simp [classOf, wScopedDraw, scoped_extend, updateClass, w0, assocModify,
        assocLookup, instGetattr, squareClass0, h1]
    rw [hc, scoped_getattr_error_iff]
    exact Or.inl h2
  · rfl

/-- Witness for C8: after scoped_extend the lookup of snake raises on a
concrete square. -/
theorem scoped_extend_discards_previous_getattr_witness :
    instGetattr (classOf wScopedDraw "Square") sq3 "snake" emptyFrame =
      Except.error () :=
  (scoped_extend_discards_previous_getattr sq3 "snake" emptyFrame
    (by decide) (by decide)).1

/-- C4 (confirmed): the handlers installed by no_override_extend and
extension intercept only failed lookups: whenever the previous dunder
getattr returns a value they return exactly that value, and when it raises
their result coincides with the gated lookup run over the always-raising
default handler, so the scope check is consulted only on names the previous
handler raises on. -/
theorem wrappers_defer_to_original (original : Getattr) (f : PyFunc) (sc : ScopeCls)
    (sq : Square) (name : String) (fr : Frame) (v : PyVal) :
    (original sq name fr = Except.ok v →
      no_override_getattr original f sq name fr = Except.ok v ∧
      extension_getattr original sc sq name fr = Except.ok v) ∧
    (original sq name fr = Except.error () →
      no_override_getattr original f sq name fr =
        no_override_getattr defaultGetattr f sq name fr ∧
      extension_getattr original sc sq name fr =
        extension_getattr defaultGetattr sc sq name fr) := by
  constructor
  · intro h
    constructor
    · unfold no_override_getattr
      rw [h]
    · unfold extension_getattr
      rw [h]
  · intro h
    constructor
    · unfold no_override_getattr
      rw [h]
      rfl
    · unfold extension_getattr
      rw [h]
      rfl

/-- Witness for C4: the preserved Square handler resolves snake through the
wrapper, and on a name it raises on the wrapper agrees with the gated
lookup over the default handler. -/
theorem wrappers_defer_to_original_witness :
    no_override_getattr Square.getattrImpl drawF sq3 "snake" emptyFrame =
      Except.ok (PyVal.strV "eyes") ∧
    extension_getattr Square.getattrImpl squareExtensions sq3 "draw" emptyFrame =
      extension_getattr defaultGetattr squareExtensions sq3 "draw" emptyFrame :=
  ⟨((wrappers_defer_to_original Square.getattrImpl drawF squareExtensions sq3 "snake"
      emptyFrame (PyVal.strV "eyes")).1 rfl).1,
   ((wrappers_defer_to_original Square.getattrImpl drawF squareExtensions sq3 "draw"
      emptyFrame PyVal.noneV).2 rfl).2⟩

/-- C1 counterexample: with no_override_extend installed over Square's own
handler, the name snake is not the registered extension method and is not
visible in the (empty) caller frame, yet the lookup returns the string eyes
instead of raising AttributeError, so the claimed equivalence fails. -/
theorem no_override_resolves_unregistered_name :
    no_override_getattr Square.getattrImpl drawF sq3 "snake" emptyFrame =
      Except.ok (PyVal.strV "eyes") ∧
    "snake" ≠ drawF.name ∧
    _is_in_scope emptyFrame "snake" (PyVal.funcV drawF) = false :=
  ⟨rfl, by decide, rfl⟩

/-- C1 (corrected): for a name whose normal lookup fails, the handler
installed by scoped_extend raises AttributeError exactly when the name is
not the registered one or the registering function is not visible in the
caller's chained bindings; the handler installed by no_override_extend
raises exactly when, in addition, the class's pre-existing dunder getattr
(which it preserves) itself raises on the name. -/
theorem extension_error_conditions (original : Getattr) (f : PyFunc) (sq : Square)
    (name : String) (fr : Frame) :
    (scoped_getattr f sq name fr = Except.error () ↔
      (name ≠ f.name ∨ chainMapGet fr f.name ≠ PyVal.funcV f)) ∧
    (no_override_getattr original f sq name fr = Except.error () ↔
      (original sq name fr = Except.error () ∧
        (name ≠ f.name ∨ chainMapGet fr f.name ≠ PyVal.funcV f))) := by
  refine ⟨scoped_getattr_error_iff f sq name fr, ?_⟩
  unfold no_override_getattr
  cases horig : original sq name fr with
  | ok v => simp
  | error e =>
    cases e
    simpa using scoped_getattr_error_iff f sq name fr

/-- C3 counterexample: monkey_extend performs no inspection of the caller's
bindings: with no binding visible in the caller frame at all, the attached
method is still exposed on the instance, where the claim requires
AttributeError. -/
theorem monkey_extend_ignores_scope :
    instGetattr (classOf (monkey_extend "Square" drawF w0) "Square") sq3 "draw"
        emptyFrame =
      Except.ok (PyVal.bound drawF sq3) ∧
    _is_in_scope emptyFrame "draw" (PyVal.funcV drawF) = false :=
  ⟨rfl, rfl⟩

/-- C3 (corrected): scoped_extend, no_override_extend and extension each
raise AttributeError when the caller-frame inspection fails (for the latter
two, on names their preserved handler raises on), but monkey_extend attaches
the method unconditionally, exposing it whatever the caller's bindings. -/
theorem strategies_scope_inspection (f : PyFunc) (original : Getattr) (sc : ScopeCls)
    (sq : Square) (name : String) (fr : Frame) :
    (f.name ≠ "length" →
      instGetattr (classOf (monkey_extend "Square" f w0) "Square") sq f.name fr =
        Except.ok (PyVal.bound f sq)) ∧
    (chainMapGet fr f.name ≠ PyVal.funcV f →
      scoped_getattr f sq name fr = Except.error ()) ∧
    (original sq name fr = Except.error () → chainMapGet fr f.name ≠ PyVal.funcV f →
      no_override_getattr original f sq name fr = Except.error ()) ∧
    (original sq name fr = Except.error () →
      chainMapGet fr sc.name ≠ PyVal.clsV sc.name sc.id →
      extension_getattr original sc sq name fr = Except.error ()) := by
  refine ⟨?_, ?_, ?_, ?_⟩
  · intro h
    simp [classOf, monkey_extend, updateClass, w0, assocModify, assocLookup,
      instGetattr, squareClass0, h]
  · intro h
    exact (scoped_getattr_error_iff f sq name fr).mpr (Or.inr h)
  · intro h1 h2
    unfold no_override_getattr
    rw [h1]
    exact (scoped_getattr_error_iff f sq name fr).mpr (Or.inr h2)
  · intro h1 h2
    unfold extension_getattr
    rw [h1]
    show (match assocLookup sc.attrs name with
      | none => Except.error ()
      | some a =>
        if _is_in_scope fr sc.name (PyVal.clsV sc.name sc.id) = false then
          Except.error ()
        else
          match a with
          | ScopeAttr.prop getter => Except.ok (getter sq)
          | ScopeAttr.method f => Except.ok (PyVal.bound f sq)) = Except.error ()
    cases hA : assocLookup sc.attrs name with
    | none => rfl
    | some a =>
      show (if _is_in_scope fr sc.name (PyVal.clsV sc.name sc.id) = false then
          Except.error ()
        else
          match a with
          | ScopeAttr.prop getter => Except.ok (getter sq)
          | ScopeAttr.method f => Except.ok (PyVal.bound f sq)) = Except.error ()
      rw [if_pos ((is_in_scope_false_iff fr sc.name (PyVal.clsV sc.name sc.id)).mpr h2)]

/-- Witness for the corrected C3 at concrete inputs: monkey_extend exposes
draw with an empty caller frame, while the three gated strategies raise
there. -/
theorem strategies_scope_inspection_witness :
    instGetattr (classOf (monkey_extend "Square" drawF w0) "Square") sq3 "draw"
        emptyFrame =
      Except.ok (PyVal.bound drawF sq3) ∧
    scoped_getattr drawF sq3 "draw" emptyFrame = Except.error () ∧
    no_override_getattr defaultGetattr drawF sq3 "draw" emptyFrame =
      Except.error () ∧
    extension_getattr defaultGetattr squareExtensions sq3 "draw" emptyFrame =
      Except.error () :=
  have h := strategies_scope_inspection drawF defaultGetattr squareExtensions sq3
      "draw" emptyFrame
  ⟨h.1 (by decide), h.2.1 (by decide), h.2.2.1 rfl (by decide),
   h.2.2.2 rfl (by decide)⟩

/-- C6 (confirmed): extension installs its handler on the scope class's base
class only; with SquareExtensions over Square, looking up draw on a Square
instance succeeds exactly when the caller frame's chained bindings resolve
the name SquareExtensions to the scope class itself, returning the method
bound to the instance; in general, a gated name that is a plain method is
returned bound to the instance and a gated property yields its getter's
value. -/
theorem extension_registers_on_base (k : String) (sq : Square) (fr : Frame)
    (original : Getattr) (sc : ScopeCls) (name : String) (getter : Square → PyVal)
    (g : PyFunc) :
    (k ≠ "Square" → assocLookup wExt.classes k = assocLookup w0.classes k) ∧
    (instGetattr (classOf wExt "Square") sq "draw" fr =
        Except.ok (PyVal.bound drawF sq) ↔
      chainMapGet fr "SquareExtensions" = PyVal.clsV "SquareExtensions" 1) ∧
    (original sq name fr = Except.error () →
      assocLookup sc.attrs name = some (ScopeAttr.method g) →
      chainMapGet fr sc.name = PyVal.clsV sc.name sc.id →
      extension_getattr original sc sq name fr = Except.ok (PyVal.bound g sq)) ∧
    (original sq name fr = Except.error () →
      assocLookup sc.attrs name = some (ScopeAttr.prop getter) →
      chainMapGet fr sc.name = PyVal.clsV sc.name sc.id →
      extension_getattr original sc sq name fr = Except.ok (getter sq)) := by
  have hgate : ∀ (a : ScopeAttr), original sq name fr = Except.error () →
      assocLookup sc.attrs name = some a →
      chainMapGet fr sc.name = PyVal.clsV sc.name sc.id →
      extension_getattr original sc sq name fr =
        (match a with
         | ScopeAttr.prop getter => Except.ok (getter sq)
         | ScopeAttr.method f => Except.ok (PyVal.bound f sq)) := by
    intro a h1 h2 h3
    unfold extension_getattr
    rw [h1]
    show (match assocLookup sc.attrs name with
      | none => Except.error ()
      | some a =>
        if _is_in_scope fr sc.name (PyVal.clsV sc.name sc.id) = false then
          Except.error ()
        else
          match a with
          | ScopeAttr.prop getter => Except.ok (getter sq)
          | ScopeAttr.method f => Except.ok (PyVal.bound f sq)) = _
    rw [h2]
    show (if _is_in_scope fr sc.name (PyVal.clsV sc.name sc.id) = false then
        Except.error ()
      else
        match a with
        | ScopeAttr.prop getter => Except.ok (getter sq)
        | ScopeAttr.method f => Except.ok (PyVal.bound f sq)) = _
    rw [if_neg (by simp [is_in_scope_false_iff, h3])]
  refine ⟨?_, ?_, ?_, ?_⟩
  · intro h
    simp only [wExt, extension, updateClass]
    exact assocLookup_assocModify_ne _ w0.classes "Square" k h
  · have hr : instGetattr (classOf wExt "Square") sq "draw" fr =
        (if _is_in_scope fr "SquareExtensions" (PyVal.clsV "SquareExtensions" 1) = false
         then Except.error () else Except.ok (PyVal.bound drawF sq)) := rfl
    rw [hr]
    by_cases h2 : chainMapGet fr "SquareExtensions" = PyVal.clsV "SquareExtensions" 1
    · rw [if_neg (by simp [is_in_scope_false_iff, h2])]
      simp [h2]
    · rw [if_pos ((is_in_scope_false_iff fr "SquareExtensions"
        (PyVal.clsV "SquareExtensions" 1)).mpr h2)]
      simp [h2]
  · intro h1 h2 h3
    exact hgate (ScopeAttr.method g) h1 h2 h3
  · intro h1 h2 h3
    exact hgate (ScopeAttr.prop getter) h1 h2 h3

/-- Witness for C6 at concrete inputs: an unrelated class table is
untouched, draw resolves on a Square instance when SquareExtensions is
bound in the caller's globals, and a gated property yields its getter's
value. -/
theorem extension_registers_on_base_witness :
    assocLookup wExt.classes "Other" = assocLookup w0.classes "Other" ∧
    instGetattr (classOf wExt "Square") sq3 "draw" frExtScope =
      Except.ok (PyVal.bound drawF sq3) ∧
    extension_getattr defaultGetattr areaSc sq3 "area" frAreaScope =
      Except.ok (PyVal.strV "area value") :=
  have h := extension_registers_on_base "Other" sq3 frExtScope defaultGetattr areaSc
      "area" (fun _ => PyVal.strV "area value") drawF
  have hp := extension_registers_on_base "Other" sq3 frAreaScope defaultGetattr areaSc
      "area" (fun _ => PyVal.strV "area value") drawF
  ⟨h.1 (by decide), h.2.1.mpr rfl, hp.2.2.2 rfl rfl rfl⟩

end PyExt
